import Mathlib

/-!
Verification development for the coredns-analyzer repository.

The Rust sources are embedded shallowly:
  * strings are modelled through their character lists (one Lean Char per
    Rust char; byte-level facts use Char.utf8Size, matching Rust str byte
    lengths);
  * the HashMap of the aggregation pipeline is modelled as an association
    list in insertion order, and the HashMap of graph nodes as a list of
    nodes (list order standing for the iteration order of the map);
  * f64 arithmetic of the layout and animation code is modelled over the
    real numbers;
  * fallible code (the label truncation helper, the pod lookup capability)
    returns Option or Except.
-/

namespace CorednsAnalyzer

/-! ## String primitives (models of the Rust str methods used by the code) -/

/-- Model of Rust str contains: the pattern occurs as a contiguous
substring. -/
def strContains (s pat : String) : Bool :=
  s.data.tails.any (fun t => pat.data.isPrefixOf t)

/-- Model of Rust str ends_with. -/
def strEndsWith (s suf : String) : Bool :=
  suf.data.isSuffixOf s.data

/-- Model of Rust str trim_end_matches with a dot pattern: removes all
trailing dot characters (src/log_analyzer.rs line 47). -/
def trimEndDots (s : String) : String :=
  ⟨(s.data.reverse.dropWhile (fun c => c == '.')).reverse⟩

/-- Model of Rust str to_lowercase (the code only applies it to ASCII
domain names, where Char.toLower agrees with Rust). -/
def strToLower (s : String) : String :=
  ⟨s.data.map Char.toLower⟩

/-- Model of Rust str trim: whitespace removed from both ends. -/
def strTrim (s : String) : String :=
  ⟨((s.data.dropWhile Char.isWhitespace).reverse.dropWhile Char.isWhitespace).reverse⟩

/-- Model of Rust String pop (remove the last character). -/
def strPop (s : String) : String :=
  ⟨s.data.dropLast⟩

/-- Splitting a character list at a separator character, following Rust
str split: the result is never empty, and empty fragments are kept. -/
def splitChar (sep : Char) : List Char → List (List Char)
  | [] => [[]]
  | c :: cs =>
    if c == sep then [] :: splitChar sep cs
    else
      match splitChar sep cs with
      | [] => [[c]]
      | h :: t => (c :: h) :: t

/-- Model of query.split(dot).next().unwrap_or(unknown) from
src/log_analyzer.rs line 50: the left-most dot-delimited component. -/
def firstLabel (s : String) : String :=
  match splitChar '.' s.data with
  | [] => "unknown"
  | h :: _ => ⟨h⟩

/-! ## Query classifier (src/log_analyzer.rs, extract_domain_name) -/

/-- Modelled from the spec: the static public-suffix reference set.  The
generated file src/tlds.rs is not part of the sources; per the spec it is
the IANA top-level-domain list, lowercased.  A representative sample is
used; every theorem below either holds for an arbitrary list or only needs
that no entry matches the concrete counterexample strings. -/
def TLDS : List String :=
  ["com", "net", "org", "io", "dev", "sh", "gov", "edu"]

/-- Embedding of LogAnalyzer::extract_domain_name
(src/log_analyzer.rs lines 46-57).  Returns the domain key paired with the
is_internal flag, or none for Unclassified. -/
def extract_domain_name (query_name response_code : String) : Option (String × Bool) :=
  let query := trimEndDots query_name
  if strEndsWith query ".svc.cluster.local" && (response_code == "NOERROR") then
    some (firstLabel query, true)
  else if TLDS.any (fun tld => strEndsWith (strToLower query) ("." ++ tld))
        && (response_code == "NOERROR") then
    some (query, false)
  else
    none

/-- Stripping exactly one trailing root-label separator, following the
words of the spec (section 4.1 rule 1). -/
def stripOneTrailingDot (s : String) : String :=
  if strEndsWith s "." then ⟨s.data.dropLast⟩ else s

/-- Variant of the classifier that follows the words of the spec by
stripping exactly one trailing dot; used only to compare the spec text
with the source, which strips every trailing dot. -/
def extract_domain_name_one_strip (query_name response_code : String) : Option (String × Bool) :=
  let query := stripOneTrailingDot query_name
  if strEndsWith query ".svc.cluster.local" && (response_code == "NOERROR") then
    some (firstLabel query, true)
  else if TLDS.any (fun tld => strEndsWith (strToLower query) ("." ++ tld))
        && (response_code == "NOERROR") then
    some (query, false)
  else
    none

/-! ## Pod resolver (src/log_analyzer.rs, resolve_pod) -/

/-- Workload descriptor returned by the lookup capability: the code only
reads metadata.name, which is optional. -/
structure PodMeta where
  name : Option String
deriving DecidableEq

/-- Model of ip.split(colon)[0] from src/log_analyzer.rs lines 160-163:
the characters before the first colon (split always yields at least one
fragment, so the indexing cannot fail). -/
def stripPortSuffix (ip : String) : String :=
  ⟨ip.data.takeWhile (fun c => c != ':')⟩

/-- Embedding of resolve_pod (src/log_analyzer.rs lines 158-174).  The
kube API call pods.list is abstracted as a lookup capability from a
network address to a list of workload descriptors or an error. -/
def resolve_pod (lookup : String → Except String (List PodMeta)) (ip : String) : String :=
  match lookup (stripPortSuffix ip) with
  | .ok pod_list => ((pod_list.head?.bind PodMeta.name).getD "unknown")
  | .error _ => "unknown"

/-! ## Ingestion pipeline (src/log_analyzer.rs, analyze_loop inner task) -/

/-- Model of map.entry(k).or_insert_with(Vec::new).push(v) on a
HashMap of String to Vec of String, as an insertion-ordered association
list. -/
def mapPush (m : List (String × List String)) (k v : String) : List (String × List String) :=
  match m with
  | [] => [(k, [v])]
  | (k', vs) :: rest =>
    if k' == k then (k', vs ++ [v]) :: rest else (k', vs) :: mapPush rest k v

/-- Association-list lookup, modelling HashMap get by key. -/
def mapGet (m : List (String × List String)) (k : String) : Option (List String) :=
  match m with
  | [] => none
  | (k', vs) :: rest => if k' == k then some vs else mapGet rest k

/-- Embedding of the per-line ingestion step of analyze_loop
(src/log_analyzer.rs lines 109-126), after the regex capture has produced
the client ip, query name and response code: classify, resolve the source
address to a workload id, and update one of the two maps exactly as the
source does — entry(domain_name).push(pod_name). -/
def ingestLine (lookup : String → Except String (List PodMeta))
    (internal external : List (String × List String))
    (client_ip query_name response_code : String) :
    List (String × List String) × List (String × List String) :=
  match extract_domain_name query_name response_code with
  | none => (internal, external)
  | some (domain_name, is_internal) =>
    let pod_name := resolve_pod lookup client_ip
    if is_internal then (mapPush internal domain_name pod_name, external)
    else (internal, mapPush external domain_name pod_name)

/-! ## Theorems about the classifier, resolver and ingestion -/

/-- Helper: appending a trailing dot does not change the all-trailing-dot
stripped form of a query name. -/
theorem trimEndDots_append_dot (q : String) : trimEndDots (q ++ ".") = trimEndDots q := by
  obtain ⟨l⟩ := q
  show trimEndDots ⟨l ++ ['.']⟩ = trimEndDots ⟨l⟩
  simp [trimEndDots]

/-- C4 (counterexample): the code strips every trailing dot, not exactly
one.  On the query name a.svc.cluster.local.. with a success code the
source classifier returns Internal with label a, while the variant that
strips exactly one trailing dot (the words of the spec) returns
Unclassified. -/
theorem c4_counterexample :
    extract_domain_name "a.svc.cluster.local.." "NOERROR" = some ("a", true) ∧
    extract_domain_name_one_strip "a.svc.cluster.local.." "NOERROR" = none := by
  exact ⟨by decide, by decide⟩

/-- C4 (amended): the classifier strips all trailing root-label separators
from the query name; consequently classification is invariant under a
trailing dot, and for every query name whose stripped form ends in the
cluster-local suffix, with a success response code, the result is Internal
with the left-most label. -/
theorem c4_trailing_dot_handling (q rc : String) :
    extract_domain_name (q ++ ".") rc = extract_domain_name q rc ∧
    (strEndsWith (trimEndDots q) ".svc.cluster.local" = true → rc = "NOERROR" →
      extract_domain_name q rc = some (firstLabel (trimEndDots q), true)) := by
  constructor
  · unfold extract_domain_name
    rw [trimEndDots_append_dot]
  · intro h1 h2
    simp [extract_domain_name, h1, h2]

/-- C4 witness: the amended theorem applied to the concrete query name
checkout.svc.cluster.local with the success response code. -/
theorem c4_trailing_dot_handling_witness :
    strEndsWith (trimEndDots "checkout.svc.cluster.local") ".svc.cluster.local" = true ∧
    extract_domain_name ("checkout.svc.cluster.local" ++ ".") "NOERROR"
      = extract_domain_name "checkout.svc.cluster.local" "NOERROR" ∧
    extract_domain_name "checkout.svc.cluster.local" "NOERROR"
      = some (firstLabel (trimEndDots "checkout.svc.cluster.local"), true) :=
  ⟨by decide, (c4_trailing_dot_handling "checkout.svc.cluster.local" "NOERROR").1,
    (c4_trailing_dot_handling "checkout.svc.cluster.local" "NOERROR").2 (by decide) rfl⟩

/-- C7: for every query name and every response code other than the
success code NOERROR, the classifier returns Unclassified, regardless of
the suffix of the name. -/
theorem c7_nonsuccess_unclassified (q rc : String) (h : rc ≠ "NOERROR") :
    extract_domain_name q rc = none := by
  simp [extract_domain_name, h]

/-- C7 witness: the theorem applied to a cluster-local name under a
SERVFAIL response code. -/
theorem c7_nonsuccess_unclassified_witness :
    "SERVFAIL" ≠ "NOERROR" ∧
    extract_domain_name "checkout.svc.cluster.local" "SERVFAIL" = none :=
  ⟨by decide, c7_nonsuccess_unclassified "checkout.svc.cluster.local" "SERVFAIL" (by decide)⟩

/-- C9: the resolver strips the port suffix before the lookup, returns the
name of the first matching workload when the lookup succeeds with at least
one match, and returns the sentinel unknown when the lookup returns no
matches, the first match has no name, or the lookup fails; it is a total
function and never propagates an error. -/
theorem c9_resolve_pod_total (lookup : String → Except String (List PodMeta)) (ip : String) :
    (∀ p ps n, lookup (stripPortSuffix ip) = .ok (p :: ps) → p.name = some n →
      resolve_pod lookup ip = n) ∧
    (lookup (stripPortSuffix ip) = .ok [] → resolve_pod lookup ip = "unknown") ∧
    (∀ p ps, lookup (stripPortSuffix ip) = .ok (p :: ps) → p.name = none →
      resolve_pod lookup ip = "unknown") ∧
    (∀ e, lookup (stripPortSuffix ip) = .error e → resolve_pod lookup ip = "unknown") := by
  refine ⟨?_, ?_, ?_, ?_⟩
  · intro p ps n hl hn
    simp [resolve_pod, hl, hn]
  · intro hl
    simp [resolve_pod, hl]
  · intro p ps hl hn
    simp [resolve_pod, hl, hn]
  · intro e hl
    simp [resolve_pod, hl]

/-- Concrete lookup capability used by the closed witnesses: the address
10.0.0.5 owns the workload pod-a, every other address has no match. -/
def exLookup : String → Except String (List PodMeta) :=
  fun a => if a == "10.0.0.5" then .ok [⟨some "pod-a"⟩] else .ok []

/-- C9 witness: the first conjunct of the theorem applied to the address
10.0.0.5:53 — the port suffix is stripped and the first match is
returned. -/
theorem c9_resolve_pod_total_witness :
    exLookup (stripPortSuffix "10.0.0.5:53") = .ok [⟨some "pod-a"⟩] ∧
    resolve_pod exLookup "10.0.0.5:53" = "pod-a" :=
  ⟨rfl, (c9_resolve_pod_total exLookup "10.0.0.5:53").1
    ⟨some "pod-a"⟩ [] "pod-a" rfl rfl⟩

/-- C1 (code bug): the ingestion step keys the aggregated maps by the
domain name and appends the resolved workload id, not the other way
around.  On the scenario line of the spec (query
checkout.svc.cluster.local from 10.0.0.5:53 with NOERROR, where 10.0.0.5
resolves to pod-a), starting from empty maps, the internal map ends up
with the single key checkout holding the list [pod-a]; the key pod-a,
which the claim requires to hold the list [checkout], is absent. -/
theorem c1_ingest_keys_are_domains :
    (ingestLine exLookup [] [] "10.0.0.5:53" "checkout.svc.cluster.local" "NOERROR")
      = ([("checkout", ["pod-a"])], []) ∧
    mapGet (ingestLine exLookup [] [] "10.0.0.5:53" "checkout.svc.cluster.local" "NOERROR").1
      "pod-a" = none := by
  exact ⟨by decide, by decide⟩

/-! ## TUI data model (src/tui.rs) -/

/-- Node kinds of the radial graph (src/tui.rs lines 90-95). -/
inductive NodeKind
  | External
  | Pod
  | Service
deriving DecidableEq

/-- Graph node (src/tui.rs lines 97-107): animated position x,y and target
position tx,ty, modelled over the reals. -/
structure Node where
  id : String
  kind : NodeKind
  x : ℝ
  y : ℝ
  tx : ℝ
  ty : ℝ

/-- Directed edge (src/tui.rs lines 109-113); the field names from and to
of the source are rendered fromId and toId. -/
structure Edge where
  fromId : String
  toId : String
deriving DecidableEq

/-- Filter settings (src/tui.rs lines 115-120). -/
structure Filters where
  pod : Option String
  service : Option String
  external : Option String
deriving DecidableEq

/-- Modal input states (src/tui.rs lines 149-157). -/
inductive InputMode
  | Normal
  | FilterPod
  | FilterService
  | FilterExternal
  | ClearConfirm
deriving DecidableEq

/-- Application state (src/tui.rs lines 122-132).  The DnsData snapshot is
its two maps; the node HashMap is a list of nodes whose order stands for
the iteration order of the map; last_tick is dropped (the elapsed dt is
passed to the animator explicitly). -/
structure AppState where
  dataInternal : List (String × List String)
  dataExternal : List (String × List String)
  nodes : List Node
  edges : List Edge
  filters : Filters
  tab : ℕ
  inputMode : InputMode
  inputBuffer : String

/-! ## Filter engine (src/tui.rs, recompute_targets lines 308-353) -/

/-- HashSet intersection, modelled on lists up to membership. -/
def interSet (a b : List String) : List String :=
  a.filter (fun x => b.contains x)

/-- Embedding of the allowed_pods computation of recompute_targets
(src/tui.rs lines 312-353): the pod filter contributes the singleton of
the literal filter string; the service and external filters each
contribute the workload keys whose domain list has an entry containing
the filter, intersected with what is already constrained. -/
def allowedPods (s : AppState) : Option (List String) :=
  let a0 : Option (List String) := none
  let a1 : Option (List String) :=
    match s.filters.pod with
    | some p => some [p]
    | none => a0
  let a2 : Option (List String) :=
    match s.filters.service with
    | some svc =>
      let pods := (s.dataInternal.filter (fun kv => kv.2.any (fun d => strContains d svc))).map
        Prod.fst
      some (match a1 with
        | some a => interSet a pods
        | none => pods)
    | none => a1
  match s.filters.external with
  | some ext =>
    let pods := (s.dataExternal.filter (fun kv => kv.2.any (fun d => strContains d ext))).map
      Prod.fst
    some (match a2 with
      | some a => interSet a pods
      | none => pods)
  | none => a2

/-- Spec-worded allowed set for the pod filter alone, used only to compare
the source against the words of the claim: the workloads (pod-kind node
ids) whose id contains the filter as a substring. -/
def allowedPodsSubstrSpec (s : AppState) (p : String) : List String :=
  ((s.nodes.filter (fun n => n.kind == NodeKind.Pod)).filter
    (fun n => strContains n.id p)).map Node.id

/-- External-ring ids kept by recompute_targets (src/tui.rs lines
356-370): External nodes that have an edge to an allowed workload, all of
them when unconstrained. -/
def visibleExternals (s : AppState) (allowed : Option (List String)) : List String :=
  ((s.nodes.filter (fun n => n.kind == NodeKind.External)).filter (fun n =>
    match allowed with
    | some pods => s.edges.any (fun e => e.fromId == n.id && pods.contains e.toId)
    | none => true)).map Node.id

/-- Pod-ring ids kept by recompute_targets (src/tui.rs lines 372-381). -/
def visiblePods (s : AppState) (allowed : Option (List String)) : List String :=
  ((s.nodes.filter (fun n => n.kind == NodeKind.Pod)).filter (fun n =>
    match allowed with
    | some pods => pods.contains n.id
    | none => true)).map Node.id

/-- Service-ring ids kept by recompute_targets (src/tui.rs lines
383-397): Service nodes pointed to by an edge from an allowed workload. -/
def visibleServices (s : AppState) (allowed : Option (List String)) : List String :=
  ((s.nodes.filter (fun n => n.kind == NodeKind.Service)).filter (fun n =>
    match allowed with
    | some pods => s.edges.any (fun e => pods.contains e.fromId && e.toId == n.id)
    | none => true)).map Node.id

/-! ## Radial layout engine (src/tui.rs, place_on_circle lines 406-418) -/

/-- The full-turn constant of the source (std f64 TAU). -/
noncomputable def TAU : ℝ := 2 * Real.pi

/-- Angle of slot i among count slots: i times the step TAU / count,
starting at angle zero. -/
noncomputable def placeAngle (count i : ℕ) : ℝ :=
  (i : ℝ) * (TAU / (count : ℝ))

/-- Per-node effect of place_on_circle: a node whose id occurs in the ids
list (at position i) gets its target set on the circle of the given
radius at angle i times the step; other nodes are untouched.  Mirrors the
get_mut update of the source on the node map. -/
noncomputable def placeNode (ids : List String) (radius : ℝ) (n : Node) : Node :=
  match ids.indexOf? n.id with
  | some i =>
    { n with tx := radius * Real.cos (placeAngle ids.length i),
             ty := radius * Real.sin (placeAngle ids.length i) }
  | none => n

/-- Embedding of place_on_circle (src/tui.rs lines 406-418). -/
noncomputable def place_on_circle (nodes : List Node) (ids : List String) (radius : ℝ) :
    List Node :=
  if ids.isEmpty then nodes else nodes.map (placeNode ids radius)

/-- Ring radii of recompute_targets (src/tui.rs line 310). -/
noncomputable def rExt : ℝ := 0.95

/-- Pod-ring radius. -/
noncomputable def rPod : ℝ := 0.55

/-- Service-ring radius. -/
noncomputable def rSvc : ℝ := 0.15

/-- Embedding of AppState::recompute_targets (src/tui.rs lines 308-403):
compute the allowed workload set, filter the three rings, and place each
ring on its circle. -/
noncomputable def recompute_targets (s : AppState) : AppState :=
  let allowed := allowedPods s
  let externals := visibleExternals s allowed
  let pods := visiblePods s allowed
  let services := visibleServices s allowed
  let newNodes :=
    place_on_circle (place_on_circle (place_on_circle s.nodes externals rExt) pods rPod)
      services rSvc
  { s with nodes := newNodes }

/-! ## Animator (src/tui.rs, animate lines 420-431) -/

/-- One per-axis animation step with rate constant 8: position plus
(target minus position) times (1 - exp (-8 dt)). -/
noncomputable def animateAxis (dt pos tgt : ℝ) : ℝ :=
  pos + (tgt - pos) * (1 - Real.exp (-(8 : ℝ) * dt))

/-- Embedding of animate: every node advances both axes by one step. -/
noncomputable def animate (dt : ℝ) (s : AppState) : AppState :=
  { s with nodes := s.nodes.map (fun n =>
      { n with x := animateAxis dt n.x n.tx, y := animateAxis dt n.y n.ty }) }

/-! ## Interaction controller (src/tui.rs, handle_key lines 159-230) -/

/-- Key codes inspected by handle_key. -/
inductive KeyCode
  | char (c : Char)
  | esc
  | enter
  | backspace
  | other
deriving DecidableEq

/-- Embedding of the helper non_empty (src/tui.rs lines 224-230). -/
def non_empty (s : String) : Option String :=
  if s == "" then none else some s

/-- Embedding of handle_key (src/tui.rs lines 159-222).  The boolean
ctrlOnly models the condition that the key modifiers are exactly CONTROL
(only consulted by the clear-filters combo).  Returns the
continue-running flag paired with the updated state. -/
noncomputable def handle_key (code : KeyCode) (ctrlOnly : Bool) (s : AppState) :
    Bool × AppState :=
  match s.inputMode with
  | InputMode.Normal =>
    match code with
    | KeyCode.char 'q' => (false, s)
    | KeyCode.esc => (false, s)
    | KeyCode.char '1' => (true, { s with tab := 0 })
    | KeyCode.char '2' => (true, { s with tab := 1 })
    | KeyCode.char '/' => (true, { s with inputMode := InputMode.FilterPod, inputBuffer := "" })
    | KeyCode.char 's' =>
      (true, { s with inputMode := InputMode.FilterService, inputBuffer := "" })
    | KeyCode.char 'e' =>
      (true, { s with inputMode := InputMode.FilterExternal, inputBuffer := "" })
    | KeyCode.char 'c' =>
      if ctrlOnly then (true, { s with inputMode := InputMode.ClearConfirm }) else (true, s)
    | _ => (true, s)
  | _ =>
    match code with
    | KeyCode.esc => (true, { s with inputMode := InputMode.Normal, inputBuffer := "" })
    | KeyCode.enter =>
      let fs :=
        match s.inputMode with
        | InputMode.FilterPod => { s.filters with pod := non_empty (strTrim s.inputBuffer) }
        | InputMode.FilterService =>
          { s.filters with service := non_empty (strTrim s.inputBuffer) }
        | InputMode.FilterExternal =>
          { s.filters with external := non_empty (strTrim s.inputBuffer) }
        | InputMode.ClearConfirm => { pod := none, service := none, external := none }
        | InputMode.Normal => s.filters
      (true, recompute_targets
        { s with filters := fs, inputMode := InputMode.Normal, inputBuffer := "" })
    | KeyCode.backspace => (true, { s with inputBuffer := strPop s.inputBuffer })
    | KeyCode.char c => (true, { s with inputBuffer := s.inputBuffer.push c })
    | _ => (true, s)

/-! ## Draw-time visibility (src/tui.rs, node_visible lines 607-648) -/

/-- Embedding of node_visible: with no filters everything is visible;
otherwise each node is tested against the set filters by substring match
on its own id (a Pod against all three set filters, a Service against the
service filter, an External against the external filter). -/
def node_visible (fs : Filters) (n : Node) : Bool :=
  match fs.pod, fs.service, fs.external with
  | none, none, none => true
  | _, _, _ =>
    match n.kind with
    | NodeKind.Pod =>
      ((fs.pod.map (fun p => strContains n.id p)).getD true
        && (fs.service.map (fun p => strContains n.id p)).getD true)
        && (fs.external.map (fun p => strContains n.id p)).getD true
    | NodeKind.Service => (fs.service.map (fun p => strContains n.id p)).getD true
    | NodeKind.External => (fs.external.map (fun p => strContains n.id p)).getD true

/-! ## Label truncation (src/tui.rs, truncate lines 733-739) -/

/-- Byte length of a string, as Rust str len. -/
def utf8Len (l : List Char) : ℕ :=
  (l.map Char.utf8Size).sum

/-- Model of the byte slice s[..max.]: the characters spanning exactly the
first max. bytes, or none when max. bytes is not a character boundary
(where the Rust slice panics). -/
def takeBytes : List Char → ℕ → Option (List Char)
  | _, 0 => some []
  | [], _ + 1 => none
  | c :: cs, n + 1 =>
    if c.utf8Size ≤ n + 1 then (takeBytes cs (n + 1 - c.utf8Size)).map (fun l => c :: l)
    else none

/-- Embedding of truncate (src/tui.rs lines 733-739); none models the
panic of the byte slice on a non-boundary index. -/
def truncate (s : String) (maxLen : ℕ) : Option String :=
  if utf8Len s.data ≤ maxLen then some s
  else (takeBytes s.data maxLen).map (fun l => (⟨l⟩ : String) ++ "…")

/-! ## Theorems about the filter engine and visibility -/

/-- Helper: membership of a Service node id in the service ring list under
a constrained allowed set is exactly the edge condition of the source. -/
theorem mem_visibleServices_iff (s : AppState) (pods : List String) (n : Node)
    (hn : n ∈ s.nodes) (hk : n.kind = NodeKind.Service) :
    n.id ∈ visibleServices s (some pods) ↔
      s.edges.any (fun e => pods.contains e.fromId && e.toId == n.id) = true := by
  unfold visibleServices
  constructor
  · intro h
    rcases List.mem_map.mp h with ⟨m, hm, hid⟩
    rcases List.mem_filter.mp hm with ⟨_, hP⟩
    rw [← hid]
    exact hP
  · intro h
    exact List.mem_map.mpr
      ⟨n, List.mem_filter.mpr ⟨List.mem_filter.mpr ⟨hn, by simp [hk]⟩, h⟩, rfl⟩

/-- Helper: membership of an External node id in the external ring list
under a constrained allowed set is exactly the edge condition of the
source. -/
theorem mem_visibleExternals_iff (s : AppState) (pods : List String) (n : Node)
    (hn : n ∈ s.nodes) (hk : n.kind = NodeKind.External) :
    n.id ∈ visibleExternals s (some pods) ↔
      s.edges.any (fun e => e.fromId == n.id && pods.contains e.toId) = true := by
  unfold visibleExternals
  constructor
  · intro h
    rcases List.mem_map.mp h with ⟨m, hm, hid⟩
    rcases List.mem_filter.mp hm with ⟨_, hP⟩
    have : s.edges.any (fun e => e.fromId == m.id && pods.contains e.toId) = true := hP
    rw [← hid]
    exact this
  · intro h
    exact List.mem_map.mpr
      ⟨n, List.mem_filter.mpr ⟨List.mem_filter.mpr ⟨hn, by simp [hk]⟩, h⟩, rfl⟩

/-- Helper: membership of a Pod node id in the pod ring list under a
constrained allowed set is membership in the allowed set. -/
theorem mem_visiblePods_iff (s : AppState) (pods : List String) (n : Node)
    (hn : n ∈ s.nodes) (hk : n.kind = NodeKind.Pod) :
    n.id ∈ visiblePods s (some pods) ↔ pods.contains n.id = true := by
  unfold visiblePods
  constructor
  · intro h
    rcases List.mem_map.mp h with ⟨m, hm, hid⟩
    rcases List.mem_filter.mp hm with ⟨_, hP⟩
    rw [← hid]
    exact hP
  · intro h
    exact List.mem_map.mpr
      ⟨n, List.mem_filter.mpr ⟨List.mem_filter.mpr ⟨hn, by simp [hk]⟩, h⟩, rfl⟩

/-- Helper: with no filters set the allowed set is unconstrained. -/
theorem allowedPods_of_no_filters (s : AppState)
    (h : s.filters = { pod := none, service := none, external := none }) :
    allowedPods s = none := by
  simp [allowedPods, h]

/-- Pod node used by the C2 and C3 concrete states. -/
noncomputable def exPodAbc : Node :=
  { id := "pod-abc", kind := NodeKind.Pod, x := 0, y := 0, tx := 0, ty := 0 }

/-- Concrete state for C2: one workload pod-abc that queried svc-x, with
the pod filter set to the substring abc. -/
noncomputable def exC2 : AppState :=
  { dataInternal := [("pod-abc", ["svc-x"])]
    dataExternal := []
    nodes := [exPodAbc]
    edges := [{ fromId := "pod-abc", toId := "svc-x" }]
    filters := { pod := some "abc", service := none, external := none }
    tab := 0
    inputMode := InputMode.Normal
    inputBuffer := "" }

/-- C2 (code bug): with the pod filter abc set, the filter engine computes
the allowed workload set as the singleton containing the literal filter
string abc, although the workload pod-abc contains abc as a substring; the
spec-worded substring set is the singleton pod-abc, so the computed set
and the spec set disagree, and the only actual workload is excluded. -/
theorem c2_pod_filter_exact_not_substring :
    allowedPods exC2 = some ["abc"] ∧
    strContains "pod-abc" "abc" = true ∧
    allowedPodsSubstrSpec exC2 "abc" = ["pod-abc"] ∧
    visiblePods exC2 (allowedPods exC2) = [] := by
  refine ⟨by decide, by decide, by decide, by decide⟩

/-- Service node used by the C3 concrete state. -/
noncomputable def exSvcS1 : Node :=
  { id := "s1", kind := NodeKind.Service, x := 0, y := 0, tx := 0, ty := 0 }

/-- Concrete state for C3: workload p1 queried service s1; the pod filter
is the unmatched string zzz and the service filter is s1, so the allowed
workload set is empty. -/
noncomputable def exC3 : AppState :=
  { dataInternal := [("p1", ["s1"])]
    dataExternal := []
    nodes := [{ id := "p1", kind := NodeKind.Pod, x := 0, y := 0, tx := 0, ty := 0 }, exSvcS1]
    edges := [{ fromId := "p1", toId := "s1" }]
    filters := { pod := some "zzz", service := some "s1", external := none }
    tab := 0
    inputMode := InputMode.Normal
    inputBuffer := "" }

/-- C3 (counterexample): in the state exC3 the allowed workload set is
empty, so no allowed workload has an edge to the service s1 and the
layout excludes it, yet the draw-time visibility predicate reports the
Service node s1 visible (its id contains the service filter).  The
claimed equivalence between visibility and the edge condition is
therefore false. -/
theorem c3_counterexample :
    node_visible exC3.filters exSvcS1 = true ∧
    allowedPods exC3 = some [] ∧
    visibleServices exC3 (allowedPods exC3) = [] := by
  refine ⟨by decide, by decide, by decide⟩

/-- C3 (amended): the ring inclusion computed by the layout side of the
filter engine satisfies the claimed rule — under a constrained allowed
set a Service id is kept iff some allowed workload has an edge to it, an
External id iff it has an edge to some allowed workload, a Pod id iff it
is in the allowed set — and with no filters set the allowed set is
unconstrained, every node is in its ring, and every node is draw-time
visible; the draw-time predicate node_visible, however, tests the node
against the service filter by substring on its own id, independent of the
allowed set. -/
theorem c3_visibility (s : AppState) (n : Node) (hn : n ∈ s.nodes) :
    (s.filters = { pod := none, service := none, external := none } →
      node_visible s.filters n = true ∧ allowedPods s = none ∧
      (n.kind = NodeKind.External → n.id ∈ visibleExternals s none) ∧
      (n.kind = NodeKind.Pod → n.id ∈ visiblePods s none) ∧
      (n.kind = NodeKind.Service → n.id ∈ visibleServices s none)) ∧
    (∀ pods, allowedPods s = some pods →
      ((n.kind = NodeKind.Service →
        (n.id ∈ visibleServices s (allowedPods s) ↔
          s.edges.any (fun e => pods.contains e.fromId && e.toId == n.id) = true)) ∧
      (n.kind = NodeKind.External →
        (n.id ∈ visibleExternals s (allowedPods s) ↔
          s.edges.any (fun e => e.fromId == n.id && pods.contains e.toId) = true)) ∧
      (n.kind = NodeKind.Pod →
        (n.id ∈ visiblePods s (allowedPods s) ↔ pods.contains n.id = true)))) ∧
    (∀ fsvc, s.filters.service = some fsvc → n.kind = NodeKind.Service →
      node_visible s.filters n = strContains n.id fsvc) := by
  refine ⟨?_, ?_, ?_⟩
  · intro hf
    refine ⟨by simp [node_visible, hf], allowedPods_of_no_filters s hf, ?_, ?_, ?_⟩
    · intro hk
      exact List.mem_map.mpr
        ⟨n, List.mem_filter.mpr ⟨List.mem_filter.mpr ⟨hn, by simp [hk]⟩, rfl⟩, rfl⟩
    · intro hk
      exact List.mem_map.mpr
        ⟨n, List.mem_filter.mpr ⟨List.mem_filter.mpr ⟨hn, by simp [hk]⟩, rfl⟩, rfl⟩
    · intro hk
      exact List.mem_map.mpr
        ⟨n, List.mem_filter.mpr ⟨List.mem_filter.mpr ⟨hn, by simp [hk]⟩, rfl⟩, rfl⟩
  · intro pods hp
    rw [hp]
    exact ⟨fun hk => mem_visibleServices_iff s pods n hn hk,
      fun hk => mem_visibleExternals_iff s pods n hn hk,
      fun hk => mem_visiblePods_iff s pods n hn hk⟩
  · intro fsvc hsvc hk
    rcases hpod : s.filters.pod with _ | p <;>
      rcases hext : s.filters.external with _ | e <;>
        simp [node_visible, hsvc, hpod, hext, hk]

/-- Concrete no-filter state used by the C3 witness. -/
noncomputable def exC3w : AppState :=
  { dataInternal := [("p1", ["s1"])]
    dataExternal := []
    nodes := [exSvcS1]
    edges := [{ fromId := "p1", toId := "s1" }]
    filters := { pod := none, service := none, external := none }
    tab := 0
    inputMode := InputMode.Normal
    inputBuffer := "" }

/-- C3 witness: the amended theorem applied to the no-filter state built
from exSvcS1 — the service node is in its ring and draw-time visible. -/
theorem c3_visibility_witness :
    exC3w.filters = { pod := none, service := none, external := none } ∧
    node_visible exC3w.filters exSvcS1 = true ∧ allowedPods exC3w = none :=
  ⟨rfl, ((c3_visibility exC3w exSvcS1 (List.mem_singleton.mpr rfl)).1 rfl).1,
    ((c3_visibility exC3w exSvcS1 (List.mem_singleton.mpr rfl)).1 rfl).2.1⟩

/-! ## Theorems about the interaction controller -/

/-- Concrete state for the C5 counterexample: pod-filter entry mode with a
whitespace-only (hence non-empty) buffer. -/
noncomputable def exC5 : AppState :=
  { dataInternal := []
    dataExternal := []
    nodes := []
    edges := []
    filters := { pod := none, service := none, external := none }
    tab := 0
    inputMode := InputMode.FilterPod
    inputBuffer := " " }

/-- C5 (counterexample): committing a non-empty buffer does not always set
the filter to the buffer contents — a whitespace-only buffer is trimmed
to empty and clears the pod filter instead of setting it to the one-space
string. -/
theorem c5_counterexample :
    exC5.inputBuffer ≠ "" ∧
    (handle_key KeyCode.enter false exC5).2.filters.pod = none := by
  exact ⟨by decide, rfl⟩

/-- C5 (amended): in any of the four non-Normal states, pressing the
commit key applies the trimmed buffer — a buffer that trims to non-empty
sets the corresponding filter to its trimmed contents, a buffer that
trims to empty clears that filter, and in ConfirmingClear all three
filters are reset regardless of the buffer — then the state returns to
Normal, the buffer is cleared, and the filter and layout recompute is
invoked on the updated state. -/
theorem c5_commit_applies_trimmed_buffer (s : AppState) (ctrl : Bool) :
    (s.inputMode = InputMode.FilterPod →
      handle_key KeyCode.enter ctrl s = (true, recompute_targets
        { s with filters := { s.filters with pod := non_empty (strTrim s.inputBuffer) },
                 inputMode := InputMode.Normal, inputBuffer := "" })) ∧
    (s.inputMode = InputMode.FilterService →
      handle_key KeyCode.enter ctrl s = (true, recompute_targets
        { s with filters := { s.filters with service := non_empty (strTrim s.inputBuffer) },
                 inputMode := InputMode.Normal, inputBuffer := "" })) ∧
    (s.inputMode = InputMode.FilterExternal →
      handle_key KeyCode.enter ctrl s = (true, recompute_targets
        { s with filters := { s.filters with external := non_empty (strTrim s.inputBuffer) },
                 inputMode := InputMode.Normal, inputBuffer := "" })) ∧
    (s.inputMode = InputMode.ClearConfirm →
      handle_key KeyCode.enter ctrl s = (true, recompute_targets
        { s with filters := { pod := none, service := none, external := none },
                 inputMode := InputMode.Normal, inputBuffer := "" })) ∧
    (∀ t : String, t ≠ "" → non_empty t = some t) ∧
    non_empty "" = none ∧
    (∀ u : AppState, (recompute_targets u).filters = u.filters ∧
      (recompute_targets u).inputMode = u.inputMode ∧
      (recompute_targets u).inputBuffer = u.inputBuffer) := by
  obtain ⟨d1, d2, ns, es, fs, tb, m, buf⟩ := s
  refine ⟨?_, ?_, ?_, ?_, ?_, rfl, ?_⟩
  · intro h
    cases h
    rfl
  · intro h
    cases h
    rfl
  · intro h
    cases h
    rfl
  · intro h
    cases h
    rfl
  · intro t ht
    simp [non_empty, ht]
  · intro u
    obtain ⟨e1, e2, uns, ues, ufs, utb, um, ubuf⟩ := u
    exact ⟨rfl, rfl, rfl⟩

/-- Concrete state for the C5 witness: pod-filter entry mode with the
buffer api. -/
noncomputable def exC5w : AppState :=
  { dataInternal := []
    dataExternal := []
    nodes := []
    edges := []
    filters := { pod := none, service := none, external := none }
    tab := 0
    inputMode := InputMode.FilterPod
    inputBuffer := "api" }

/-- C5 witness: the amended theorem applied to exC5w — committing the
buffer api from pod-filter entry mode sets the pod filter to api, returns
to Normal with a cleared buffer, and recomputes. -/
theorem c5_commit_applies_trimmed_buffer_witness :
    exC5w.inputMode = InputMode.FilterPod ∧
    handle_key KeyCode.enter false exC5w = (true, recompute_targets
      { exC5w with filters := { exC5w.filters with pod := non_empty (strTrim exC5w.inputBuffer) },
                   inputMode := InputMode.Normal, inputBuffer := "" }) ∧
    non_empty (strTrim exC5w.inputBuffer) = some "api" :=
  ⟨rfl, (c5_commit_applies_trimmed_buffer exC5w false).1 rfl, by decide⟩

/-! ## Theorems about the radial layout engine -/

/-- Helper: on a duplicate-free list, the index of the i-th element is
i. -/
theorem indexOf?_get_of_nodup {l : List String} (hnd : l.Nodup) (i : ℕ) (hi : i < l.length) :
    l.indexOf? (l.get ⟨i, hi⟩) = some i := by
  induction l generalizing i with
  | nil => simp at hi
  | cons a t ih =>
    rcases List.nodup_cons.mp hnd with ⟨hna, hnt⟩
    cases i with
    | zero =>
      show List.findIdx? (fun x => x == a) (a :: t) 0 = some 0
      rw [List.findIdx?_cons]
      simp
    | succ j =>
      have hj : j < t.length := Nat.lt_of_succ_lt_succ hi
      have hmem : t.get ⟨j, hj⟩ ∈ t := List.get_mem t j hj
      have hne : (a == t.get ⟨j, hj⟩) = false := by
        refine beq_eq_false_iff_ne.mpr ?_
        intro hEq
        exact hna (hEq ▸ hmem)
      show List.findIdx? (fun x => x == t.get ⟨j, hj⟩) (a :: t) 0 = some (j + 1)
      rw [List.findIdx?_cons, hne]
      simp only [Bool.false_eq_true, if_false, List.findIdx?_succ]
      have hrec := ih hnt j hj
      rw [show t.indexOf? (t.get ⟨j, hj⟩)
        = List.findIdx? (fun x => x == t.get ⟨j, hj⟩) t 0 from rfl] at hrec
      rw [hrec]
      rfl

/-- Helper: a placement step never touches the current position, the id
or the kind of a node. -/
theorem placeNode_preserves (ids : List String) (radius : ℝ) (n : Node) :
    (placeNode ids radius n).x = n.x ∧ (placeNode ids radius n).y = n.y ∧
    (placeNode ids radius n).id = n.id ∧ (placeNode ids radius n).kind = n.kind := by
  unfold placeNode
  cases h : ids.indexOf? n.id <;> exact ⟨rfl, rfl, rfl, rfl⟩

/-- Helper: place_on_circle preserves every id, kind and current
position. -/
theorem place_on_circle_preserves (nodes : List Node) (ids : List String) (radius : ℝ) :
    (place_on_circle nodes ids radius).map (fun m => (m.id, m.kind, m.x, m.y))
      = nodes.map (fun m => (m.id, m.kind, m.x, m.y)) := by
  unfold place_on_circle
  split
  · rfl
  · rw [List.map_map]
    apply List.map_congr_left
    intro n _
    have h := placeNode_preserves ids radius n
    simp only [Function.comp_apply, h.1, h.2.1, h.2.2.1, h.2.2.2]

/-- Target abscissa of the node with the given id, used to state the
layout counterexample. -/
noncomputable def nodeTx (s : AppState) (nid : String) : Option ℝ :=
  (s.nodes.find? (fun n => n.id == nid)).map Node.tx

/-- Concrete state for C6: two pod nodes whose iteration order b-pod,
a-pod differs from the sorted order a-pod, b-pod; no filters. -/
noncomputable def exC6 : AppState :=
  { dataInternal := []
    dataExternal := []
    nodes := [{ id := "b-pod", kind := NodeKind.Pod, x := 0, y := 0, tx := 0, ty := 0 },
              { id := "a-pod", kind := NodeKind.Pod, x := 0, y := 0, tx := 0, ty := 0 }]
    edges := []
    filters := { pod := none, service := none, external := none }
    tab := 0
    inputMode := InputMode.Normal
    inputBuffer := "" }

/-- C6 (counterexample): the layout engine does not sort the ring ids —
it consumes them in the iteration order of the node map (no sort appears
in the source).  In exC6 the pod ring order is b-pod, a-pod, so a-pod
receives slot 1 (angle pi) and its target abscissa is -0.55, while the
claimed stable sorted order would give a-pod slot 0 (angle 0) and
abscissa 0.55. -/
theorem c6_counterexample :
    nodeTx (recompute_targets exC6) "a-pod" = some (rPod * Real.cos (placeAngle 2 1)) ∧
    rPod * Real.cos (placeAngle 2 1) ≠ rPod * Real.cos (placeAngle 2 0) := by
  refine ⟨rfl, ?_⟩
  have h1 : placeAngle 2 1 = Real.pi := by
    simp [placeAngle, TAU]
  have h0 : placeAngle 2 0 = 0 := by
    simp [placeAngle]
  rw [h1, h0, Real.cos_pi, Real.cos_zero, rPod]
  norm_num

/-- C6 (amended): for each ring the layout engine takes the
currently-visible node ids of that kind in the iteration order of the
node map (not sorted) and, for N such ids, sets the node at position i to
target (radius cos (i 2 pi / N), radius sin (i 2 pi / N)) starting at
angle zero; consecutive slots differ by 2 pi / N, every target lies at
distance radius from the origin, and only target positions are written,
never current positions, ids or kinds. -/
theorem c6_layout_geometry (s : AppState) (ids : List String) (radius : ℝ)
    (i : ℕ) (hi : i < ids.length) (n : Node) (hnd : ids.Nodup) (hr : 0 ≤ radius)
    (hid : n.id = ids.get ⟨i, hi⟩) :
    ((placeNode ids radius n).tx = radius * Real.cos (placeAngle ids.length i) ∧
      (placeNode ids radius n).ty = radius * Real.sin (placeAngle ids.length i)) ∧
    Real.sqrt ((placeNode ids radius n).tx ^ 2 + (placeNode ids radius n).ty ^ 2) = radius ∧
    placeAngle ids.length (i + 1) - placeAngle ids.length i = TAU / ids.length ∧
    placeAngle ids.length 0 = 0 ∧
    ((placeNode ids radius n).x = n.x ∧ (placeNode ids radius n).y = n.y) ∧
    ((recompute_targets s).nodes.map (fun m => (m.id, m.kind, m.x, m.y))
      = s.nodes.map (fun m => (m.id, m.kind, m.x, m.y))) ∧
    (recompute_targets s).nodes = place_on_circle (place_on_circle
      (place_on_circle s.nodes (visibleExternals s (allowedPods s)) rExt)
      (visiblePods s (allowedPods s)) rPod) (visibleServices s (allowedPods s)) rSvc := by
  have hfound : ids.indexOf? n.id = some i := by
    rw [hid]
    exact indexOf?_get_of_nodup hnd i hi
  have htx : (placeNode ids radius n).tx = radius * Real.cos (placeAngle ids.length i) := by
    unfold placeNode
    rw [hfound]
  have hty : (placeNode ids radius n).ty = radius * Real.sin (placeAngle ids.length i) := by
    unfold placeNode
    rw [hfound]
  refine ⟨⟨htx, hty⟩, ?_, ?_, ?_, ⟨(placeNode_preserves ids radius n).1,
    (placeNode_preserves ids radius n).2.1⟩, ?_, rfl⟩
  · rw [htx, hty]
    rw [show (radius * Real.cos (placeAngle ids.length i)) ^ 2
        + (radius * Real.sin (placeAngle ids.length i)) ^ 2
        = radius ^ 2 * ((Real.cos (placeAngle ids.length i)) ^ 2
          + (Real.sin (placeAngle ids.length i)) ^ 2) from by ring,
      Real.cos_sq_add_sin_sq, mul_one]
    exact Real.sqrt_sq hr
  · unfold placeAngle
    push_cast
    ring
  · unfold placeAngle
    simp
  · have hrec : (recompute_targets s).nodes = place_on_circle (place_on_circle
        (place_on_circle s.nodes (visibleExternals s (allowedPods s)) rExt)
        (visiblePods s (allowedPods s)) rPod)
        (visibleServices s (allowedPods s)) rSvc := rfl
    rw [hrec, place_on_circle_preserves, place_on_circle_preserves, place_on_circle_preserves]

/-- Pod node with id a used by the C6 witness. -/
noncomputable def exNa : Node :=
  { id := "a", kind := NodeKind.Pod, x := 0, y := 0, tx := 0, ty := 0 }

/-- C6 witness: the amended theorem applied to the ring list a, b of
radius one at slot zero — the placed target of the node a lies at
distance one from the origin. -/
theorem c6_layout_geometry_witness :
    (["a", "b"] : List String).Nodup ∧
    Real.sqrt ((placeNode ["a", "b"] 1 exNa).tx ^ 2 + (placeNode ["a", "b"] 1 exNa).ty ^ 2)
      = 1 :=
  ⟨by decide, (c6_layout_geometry exC6 ["a", "b"] 1 0 (by decide) exNa (by decide)
    (by norm_num) rfl).2.1⟩

/-! ## Theorems about the animator -/

/-- Helper: the one-step error recurrence — after one animation step the
signed distance to the target is scaled by exp (-8 dt). -/
theorem animateAxis_sub (dt pos tgt : ℝ) :
    animateAxis dt pos tgt - tgt = (pos - tgt) * Real.exp (-(8 : ℝ) * dt) := by
  unfold animateAxis
  ring

/-- Helper: the error after k steps is the initial error scaled by the
k-th power of exp (-8 dt). -/
theorem animateAxis_iter (dt pos tgt : ℝ) (k : ℕ) :
    (fun p => animateAxis dt p tgt)^[k] pos
      = tgt + (pos - tgt) * (Real.exp (-(8 : ℝ) * dt)) ^ k := by
  induction k with
  | zero => simp
  | succ m ih =>
    rw [Function.iterate_succ_apply', ih]
    have h := animateAxis_sub dt (tgt + (pos - tgt) * (Real.exp (-(8 : ℝ) * dt)) ^ m) tgt
    have h2 : animateAxis dt (tgt + (pos - tgt) * (Real.exp (-(8 : ℝ) * dt)) ^ m) tgt
        = tgt + ((tgt + (pos - tgt) * (Real.exp (-(8 : ℝ) * dt)) ^ m) - tgt)
          * Real.exp (-(8 : ℝ) * dt) := by linarith [h]
    rw [h2]
    ring

/-- C8: the animator advances every node per axis by position plus
(target minus position) times (1 - exp (-8 dt)) once per frame; for a
fixed target and fixed positive dt, when the position differs from the
target each application strictly decreases the distance to the target,
never overshoots (the new position stays strictly between the old
position and the target), never exactly reaches the target, and the
iterated positions tend to the target. -/
theorem c8_animator (dt pos tgt : ℝ) (hdt : 0 < dt) (hne : pos ≠ tgt) (s : AppState) :
    |animateAxis dt pos tgt - tgt| < |pos - tgt| ∧
    animateAxis dt pos tgt - tgt = (pos - tgt) * Real.exp (-(8 : ℝ) * dt) ∧
    (pos < tgt → pos < animateAxis dt pos tgt ∧ animateAxis dt pos tgt < tgt) ∧
    (tgt < pos → tgt < animateAxis dt pos tgt ∧ animateAxis dt pos tgt < pos) ∧
    animateAxis dt pos tgt ≠ tgt ∧
    Filter.Tendsto (fun k => (fun p => animateAxis dt p tgt)^[k] pos)
      Filter.atTop (nhds tgt) ∧
    (animate dt s).nodes = s.nodes.map (fun n =>
      { n with x := animateAxis dt n.x n.tx, y := animateAxis dt n.y n.ty }) := by
  have he0 : 0 < Real.exp (-(8 : ℝ) * dt) := Real.exp_pos _
  have he1 : Real.exp (-(8 : ℝ) * dt) < 1 := by
    rw [Real.exp_lt_one_iff]
    nlinarith
  have habs : 0 < |pos - tgt| := abs_pos.mpr (sub_ne_zero.mpr hne)
  refine ⟨?_, animateAxis_sub dt pos tgt, ?_, ?_, ?_, ?_, rfl⟩
  · rw [animateAxis_sub, abs_mul, abs_of_pos he0]
    calc |pos - tgt| * Real.exp (-(8 : ℝ) * dt) < |pos - tgt| * 1 :=
          mul_lt_mul_of_pos_left he1 habs
      _ = |pos - tgt| := mul_one _
  · intro hlt
    constructor
    · unfold animateAxis
      nlinarith
    · have := animateAxis_sub dt pos tgt
      nlinarith
  · intro hlt
    constructor
    · have := animateAxis_sub dt pos tgt
      nlinarith
    · unfold animateAxis
      nlinarith
  · intro hEq
    have h := animateAxis_sub dt pos tgt
    rw [hEq, sub_self] at h
    have hz : pos - tgt = 0 := by
      rcases mul_eq_zero.mp h.symm with h1 | h1
      · exact h1
      · exact absurd h1 (ne_of_gt he0)
    exact hne (by linarith [hz])
  · have hiter : (fun k => (fun p => animateAxis dt p tgt)^[k] pos)
        = fun k => tgt + (pos - tgt) * (Real.exp (-(8 : ℝ) * dt)) ^ k := by
      funext k
      exact animateAxis_iter dt pos tgt k
    rw [hiter]
    have hpow : Filter.Tendsto (fun k : ℕ => (Real.exp (-(8 : ℝ) * dt)) ^ k)
        Filter.atTop (nhds 0) :=
      tendsto_pow_atTop_nhds_zero_of_lt_one he0.le he1
    have hfin := (hpow.const_mul (pos - tgt)).const_add tgt
    simpa using hfin

/-- Empty application state used by closed witnesses. -/
noncomputable def exEmpty : AppState :=
  { dataInternal := []
    dataExternal := []
    nodes := []
    edges := []
    filters := { pod := none, service := none, external := none }
    tab := 0
    inputMode := InputMode.Normal
    inputBuffer := "" }

/-- C8 witness: the theorem applied at position 0, target 1, dt 1 — one
step strictly decreases the distance to the target. -/
theorem c8_animator_witness :
    (0 : ℝ) < 1 ∧ (0 : ℝ) ≠ 1 ∧ |animateAxis 1 0 1 - 1| < |(0 : ℝ) - 1| :=
  ⟨by norm_num, by norm_num, (c8_animator 1 0 1 (by norm_num) (by norm_num) exEmpty).1⟩

/-! ## Theorems about the label truncation helper -/

/-- Helper: a successful byte take yields a prefix of the characters
spanning exactly the requested number of bytes. -/
theorem takeBytes_spec (l : List Char) (n : ℕ) (r : List Char) (h : takeBytes l n = some r) :
    r <+: l ∧ utf8Len r = n := by
  induction l generalizing n r with
  | nil =>
    cases n with
    | zero =>
      simp only [takeBytes] at h
      cases h
      exact ⟨List.prefix_rfl, rfl⟩
    | succ m => simp [takeBytes] at h
  | cons c cs ih =>
    cases n with
    | zero =>
      simp only [takeBytes] at h
      cases h
      exact ⟨List.nil_prefix, rfl⟩
    | succ m =>
      simp only [takeBytes] at h
      split at h
      · rcases Option.map_eq_some'.mp h with ⟨r', hr', hrr⟩
        rcases ih (m + 1 - c.utf8Size) r' hr' with ⟨hpre, hlen⟩
        subst hrr
        refine ⟨List.cons_prefix_cons.mpr ⟨rfl, hpre⟩, ?_⟩
        have hle : c.utf8Size ≤ m + 1 := by assumption
        simp only [utf8Len, List.map_cons, List.sum_cons]
        simp only [utf8Len] at hlen
        omega
      · exact absurd h (by simp)

/-- Non-ASCII counterexample string of the C10 analysis: fifteen a
characters followed by a two-byte character, 17 bytes in total, whose
byte 16 falls inside the final character. -/
def exBadLabel : String :=
  "aaaaaaaaaaaaaaaé"

/-- C10 (counterexample): truncate is not total — on a 17-byte string
whose byte 16 is not a character boundary the byte slice panics, modelled
here by the none result. -/
theorem c10_counterexample :
    utf8Len exBadLabel.data = 17 ∧
    truncate exBadLabel 16 = none := by
  exact ⟨by decide, by decide⟩

/-- C10 (amended): for every string s of at most 16 bytes, truncate
returns s unchanged; for every longer string whose byte 16 is a character
boundary it returns the characters spanning exactly the first 16 bytes
followed by an ellipsis; for every longer string whose byte 16 is not a
boundary the byte slice panics (none). -/
theorem c10_truncate_boundary (s : String) :
    (utf8Len s.data ≤ 16 → truncate s 16 = some s) ∧
    (∀ l, utf8Len s.data > 16 → takeBytes s.data 16 = some l →
      truncate s 16 = some ((⟨l⟩ : String) ++ "…") ∧ l <+: s.data ∧ utf8Len l = 16) ∧
    (utf8Len s.data > 16 → takeBytes s.data 16 = none → truncate s 16 = none) := by
  refine ⟨?_, ?_, ?_⟩
  · intro h
    simp [truncate, h]
  · intro l hgt hl
    have hns : ¬ utf8Len s.data ≤ 16 := Nat.not_le.mpr hgt
    rcases takeBytes_spec s.data 16 l hl with ⟨hpre, hlen⟩
    refine ⟨?_, hpre, hlen⟩
    simp [truncate, hns, hl]
  · intro hgt hl
    have hns : ¬ utf8Len s.data ≤ 16 := Nat.not_le.mpr hgt
    simp [truncate, hns, hl]

/-- C10 witness: the amended theorem applied to a 21-byte ASCII label —
the result keeps the first 16 bytes and appends the ellipsis. -/
theorem c10_truncate_boundary_witness :
    utf8Len "pod-12345678901234567".data > 16 ∧
    truncate "pod-12345678901234567" 16 = some ("pod-123456789012" ++ "…") :=
  ⟨by decide, ((c10_truncate_boundary "pod-12345678901234567").2.1
    "pod-123456789012".data (by decide) (by decide)).1⟩

end CorednsAnalyzer
